import Mathlib

/-!
# A shallow embedding of the fathon MFDFA core (src/fathon/mfdfa.pyx)

This file models the `MFDFA` Cython class of the fathon package and proves
properties of its operations: construction (`__init__`), fluctuation-vector
computation (`computeFlucVec` / `cy_computeFlucVec`), log-log fitting
(`fitFlucVec`), mass exponents (`computeMassExponents`) and the multifractal
spectrum (`computeMultifractalSpectrum`).

Modelling conventions:
* Python float values are modelled as rational numbers (every IEEE float is a
  rational number; rounding is not modelled); the input series additionally
  distinguishes NaN entries (`PyFloat`), since the constructor filters them
  with `np.isnan`.
* A Python method call is modelled by a `PyResult`: it either returns a value,
  raises an exception (`PyErr`, carrying the exception class and message), or
  prints a notice and falls through returning `None` (`returnedNone`), which is
  what the legacy state-machine guards do.
* The two C fluctuation kernels (`flucMFDFAForwCompute` and
  `flucMFDFAForwBackwCompute`, declared in `cLoops.h` and implemented in a C
  translation unit that is not part of the sources modelled here) are passed as
  function parameters; no property proved below depends on their values.
* `np.polyfit` is an external dependency of the package; `polyfit1` models its
  degree-1 contract from the spec (ordinary least squares for a line).
  Likewise `np.log` is external; `fitFlucVec` takes it as a function parameter
  `log`, and no property proved below depends on its values.
* Mutation of `self` is modelled by returning an updated state.
-/

namespace Fathon

/-- An input entry for the constructor: a (rational) number or NaN.  The
constructor removes NaN entries with the boolean mask `~np.isnan(...)`
(mfdfa.pyx line 57); in this embedding every non-NaN entry is finite. -/
inductive PyFloat where
  | nan : PyFloat
  | finite (x : ℚ) : PyFloat
deriving DecidableEq

/-- `np.isnan` on one entry. -/
def PyFloat.isnan : PyFloat → Bool
  | .nan => true
  | .finite _ => false

/-- The numeric value of a non-NaN entry (0 for NaN, never used on NaN). -/
def PyFloat.val : PyFloat → ℚ
  | .nan => 0
  | .finite x => x

/-- The NaN mask as a partial projection: `none` for NaN. -/
def PyFloat.toOpt : PyFloat → Option ℚ
  | .nan => none
  | .finite x => some x

/-- A Python exception: its class and message. -/
inductive PyErr where
  | valueError (msg : String)
  | typeError (msg : String)
  | nameError (name : String)
deriving DecidableEq, Repr

/-- Outcome of a Python method call: a returned value, a bare `return None`
reached after printing a notice (the legacy `isComputed` guard), or a raised
exception. -/
inductive PyResult (α : Type) where
  | returned (a : α)
  | returnedNone
  | raised (e : PyErr)
deriving DecidableEq

/-- Whether the call raised an exception. -/
def PyResult.isError {α : Type} : PyResult α → Bool
  | .raised _ => true
  | _ => false

/-- The argument forms a caller can pass for `qList`.  `computeFlucVec` checks
`isinstance(qList, float)`, then `isinstance(qList, list) or
isinstance(qList, np.ndarray)` (mfdfa.pyx lines 129-134); a Python `int`, a
tuple, or any other object falls to the `else` branch. -/
inductive QArg where
  | pyFloat (x : ℚ)
  | pyInt (k : ℤ)
  | pyList (xs : List ℚ)
  | pyNdarray (xs : List ℚ)
  | pyTuple (xs : List ℚ)
deriving DecidableEq

/-- The `qList` coercion of `computeFlucVec` (mfdfa.pyx lines 129-134).
A float is wrapped into a one-element array; a list or ndarray is converted;
every other form reaches the `else` branch, whose message-formatting expression
`type(q_list)` references the name `q_list`, which is unbound in
`computeFlucVec` (the parameter is spelled `qList`), so evaluating the branch
raises `NameError` for the name `q_list` before the intended `ValueError` is
ever constructed. -/
def coerceQList : QArg → Except PyErr (List ℚ)
  | .pyFloat x => .ok [x]
  | .pyList xs => .ok xs
  | .pyNdarray xs => .ok xs
  | .pyInt _ => .error (.nameError "q_list")
  | .pyTuple _ => .error (.nameError "q_list")

/-- The state of an `MFDFA` object: the cleaned series `tsVec`, the window
sizes `n`, the fluctuation matrix `F` (one row per q-order), the fitted slopes
`listH` (`none` until `fitFlucVec` has run, like the uninitialized `cdef`
attribute which is `None`), the q-orders `qList`, the scale step `nStep`, and
the `isComputed` flag. -/
structure MFDFA where
  tsVec : List ℚ
  n : List ℤ
  F : List (List ℚ)
  listH : Option (List ℚ)
  qList : List ℚ
  nStep : ℤ
  isComputed : Bool
deriving DecidableEq

/-- `MFDFA.__init__` (mfdfa.pyx lines 55-58): store the series with NaN
entries removed, set `isComputed := False`.  The other attributes start out
as uninitialized `cdef` fields (`None` / 0), modelled by empty defaults. -/
def MFDFA.init (ts : List PyFloat) : MFDFA :=
  { tsVec := ts.filterMap PyFloat.toOpt
    n := []
    F := []
    listH := none
    qList := []
    nStep := 0
    isComputed := false }

/-- `MFDFA.__init__` viewed as a fallible call: the constructor body performs
no validation and contains no raise, so it succeeds on every input. -/
def MFDFA.initE (ts : List PyFloat) : Except PyErr MFDFA :=
  .ok (MFDFA.init ts)

/-- `np.arange(start, stop, step)` over the integers, for positive `step`:
`start, start + step, ...` strictly below `stop`. -/
def arange (start stop step : ℤ) : List ℤ :=
  (List.range ((stop - start + step - 1) / step).toNat).map fun (k : ℕ) => start + (k : ℤ) * step

/-- Modelled from the spec: the external least-squares polynomial fit routine
(`np.polyfit` with degree 1), which the spec places outside this core
("polynomial least-squares fitting (may be delegated to a standard
linear-algebra/polyfit routine - contract: given x,y vectors of length m and
degree d, returns coefficients highest-degree-first)").  For degree 1 this is
ordinary least squares for a line: the returned pair is (slope, intercept). -/
def polyfit1 (xs ys : List ℚ) : ℚ × ℚ :=
  let m : ℚ := xs.length
  let sx := xs.sum
  let sy := ys.sum
  let sxx := (xs.map fun x => x * x).sum
  let sxy := (List.zipWith (fun x y => x * y) xs ys).sum
  let slope := (m * sxy - sx * sy) / (m * sxx - sx * sx)
  (slope, (sy - slope * sx) / m)

/-- The Python slice `l[i:j+1]` (the closed index range `[i, j]`). -/
def pySlice {α : Type} (l : List α) (i j : ℕ) : List α :=
  (l.drop i).take (j + 1 - i)

/-- `MFDFA.cy_computeFlucVec` (mfdfa.pyx lines 63-85): store `qList` and
`nStep`, build the window sizes `vecn = np.arange(nMin, nMax + 1, nStep)`, and
fill the q-by-n fluctuation matrix cell by cell with the selected C kernel.
The kernels are parameters of the embedding (see the file docstring). -/
def MFDFA.cy_computeFlucVec (self : MFDFA)
    (flucForw flucForwBackw : List ℚ → ℤ → ℚ → ℤ → ℤ → ℚ)
    (tsLen nMin : ℤ) (q_list : List ℚ) (nMax polOrd nStep : ℤ) (revSeg : Bool) :
    List ℤ × List (List ℚ) × MFDFA :=
  let vecn := arange nMin (nMax + 1) nStep
  let fluc := if revSeg then flucForwBackw else flucForw
  let mtxf := q_list.map fun q => vecn.map fun w => fluc self.tsVec w q tsLen polOrd
  (vecn, mtxf, { self with qList := q_list, nStep := nStep })

def msgPolOrd : String := "Error: Polynomial order must be greater than 0."

def msgNStep : String := "Error: Step for scales must be greater than 0."

def msgMinMax3 : String := "Error: Variable nMin and nMax must be at least equal to 3."

def msgMaxGtMin : String := "Error: Variable nMax must be greater than variable nMin."

def msgMaxLen : String := "Error: Variable nMax must be less than the input vector length."

def msgMinPolOrd (polOrd : ℤ) : String :=
  "Error: Variable nMin must be at least equal to " ++ toString (polOrd + 2) ++ "."

def msgFitOrder : String := "Error: Variable nEnd must be greater than variable nStart."

def msgFitInterval (lo hi : ℤ) : String :=
  "Error: Fit limits must be included in interval [" ++ toString lo ++ ", " ++ toString hi ++ "]."

def msgFitMember : String := "Error: Fit limits must be included in the n vector."

def msgQMoments : String :=
  "Error: Number of q moments must be greater than one to compute multifractal spectrum."

def msgNoneTimesArray : String := "unsupported operand type for NoneType and ndarray"

/-- `MFDFA.computeFlucVec` (mfdfa.pyx lines 87-139): validate the scale
parameters (raising `ValueError` at the first failing check), substitute the
`-999` sentinel of `nMax` by `int(tsLen / 4)`, coerce `qList`, then run
`cy_computeFlucVec`, store `n` and `F`, set `isComputed`, and return
`(n, F)`. -/
def MFDFA.computeFlucVec (self : MFDFA)
    (flucForw flucForwBackw : List ℚ → ℤ → ℚ → ℤ → ℤ → ℚ)
    (nMin : ℤ) (qList : QArg) (nMax polOrd nStep : ℤ) (revSeg : Bool) :
    PyResult (List ℤ × List (List ℚ) × MFDFA) :=
  let tsLen : ℤ := self.tsVec.length
  if polOrd < 1 then .raised (.valueError msgPolOrd)
  else if nStep < 1 then .raised (.valueError msgNStep)
  else
    let nMax' := if nMax = -999 then tsLen / 4 else nMax
    if nMax' < 3 ∨ nMin < 3 then .raised (.valueError msgMinMax3)
    else if nMax' ≤ nMin then .raised (.valueError msgMaxGtMin)
    else if nMax' > tsLen then .raised (.valueError msgMaxLen)
    else if nMin < polOrd + 2 then .raised (.valueError (msgMinPolOrd polOrd))
    else
      match coerceQList qList with
      | .error e => .raised e
      | .ok qs =>
        let r := self.cy_computeFlucVec flucForw flucForwBackw tsLen nMin qs nMax' polOrd nStep revSeg
        .returned (r.1, r.2.1, { r.2.2 with n := r.1, F := r.2.1, isComputed := true })

/-- `MFDFA.fitFlucVec` (mfdfa.pyx lines 143-197).  If the fluctuations have
not been computed, the method prints a notice and returns `None`.  Otherwise
the `-999` sentinels of `nStart` and `nEnd` are replaced by the first and last
entry of `n`; the fit limits are validated (raising `ValueError`); then, for
each q-order, `np.polyfit` fits `log F[i, start:end+1] / log logBase` against
`log n[start:end+1] / log logBase` with degree 1.  The slopes are stored in
`listH`; slopes and intercepts are returned.  The `verbose` printing has no
effect on the result and is not modelled.  `log` is the external `np.log`
routine, a parameter of the embedding (see the file docstring). -/
def MFDFA.fitFlucVec (self : MFDFA) (log : ℚ → ℚ) (nStart nEnd : ℤ) (logBase : ℚ) :
    PyResult (List ℚ × List ℚ × MFDFA) :=
  if self.isComputed then
    let nStart' := if nStart = -999 then self.n.headI else nStart
    let nEnd' := if nEnd = -999 then self.n.getLastD 0 else nEnd
    if nStart' > nEnd' then .raised (.valueError msgFitOrder)
    else if nStart' < self.n.headI ∨ nEnd' > self.n.getLastD 0 then
      .raised (.valueError (msgFitInterval self.n.headI (self.n.getLastD 0)))
    else if nStart' ∉ self.n ∨ nEnd' ∉ self.n then .raised (.valueError msgFitMember)
    else
      let start := ((nStart' - self.n.headI) / self.nStep).toNat
      let endI := ((nEnd' - self.n.headI) / self.nStep).toNat
      let xs := (pySlice self.n start endI).map fun w => log (w : ℚ) / log logBase
      let fits := (List.range self.qList.length).map fun i =>
        polyfit1 xs ((pySlice (self.F.getD i []) start endI).map fun v =>
          log v / log logBase)
      let slopes := fits.map Prod.fst
      let intercepts := fits.map Prod.snd
      .returned (slopes, intercepts, { self with listH := some slopes })
  else .returnedNone

/-- `MFDFA.computeMassExponents` (mfdfa.pyx lines 202-217).  If the
fluctuations have not been computed, print a notice and return `None`.
Otherwise evaluate `self.listH * self.qList - 1`: when no fit has run,
`self.listH` is still `None` and the product raises `TypeError`; when a fit
has run, this is the elementwise product of the equal-length arrays `listH`
and `qList`, minus one. -/
def MFDFA.computeMassExponents (self : MFDFA) : PyResult (List ℚ) :=
  if self.isComputed then
    match self.listH with
    | none => .raised (.typeError msgNoneTimesArray)
    | some hs => .returned (List.zipWith (fun h q => h * q - 1) hs self.qList)
  else .returnedNone

/-- `MFDFA.computeMultifractalSpectrum` (mfdfa.pyx lines 221-243).  If the
fluctuations have not been computed, print a notice and return `None`.  If
fewer than two q-orders are present, raise `ValueError`.  Otherwise
`tau = self.computeMassExponents()`,
`alpha = np.diff(tau) / (qList[1] - qList[0])` and
`mfSpect = qList[0:-1] * alpha - tau[0:-1]`; a `TypeError` from the inner call
(unfitted state) propagates. -/
def MFDFA.computeMultifractalSpectrum (self : MFDFA) : PyResult (List ℚ × List ℚ) :=
  if self.isComputed then
    if 1 < self.qList.length then
      match self.computeMassExponents with
      | .returned tau =>
        let dq := self.qList.getD 1 0 - self.qList.getD 0 0
        let alpha := (List.zipWith (fun a b => b - a) tau tau.tail).map fun d => d / dq
        let mfSpect := List.zipWith (fun qa t => qa - t)
          (List.zipWith (fun q al => q * al) self.qList.dropLast alpha) tau.dropLast
        .returned (alpha, mfSpect)
      | .raised e => .raised e
      | .returnedNone => .returnedNone
    else .raised (.valueError msgQMoments)
  else .returnedNone

/-- The six scale-parameter checks of `computeFlucVec` in the precedence order
the spec states (polynomial order, step, minimum window sizes, ordering,
series length, polynomial headroom), with the `nMax` sentinel substitution in
its place between the second and third check; yields the error of the first
failing check, or `none` when all pass. -/
def scaleCheckError (tsLen nMin nMax polOrd nStep : ℤ) : Option PyErr :=
  if polOrd < 1 then some (.valueError msgPolOrd)
  else if nStep < 1 then some (.valueError msgNStep)
  else
    let nMax' := if nMax = -999 then tsLen / 4 else nMax
    if nMax' < 3 ∨ nMin < 3 then some (.valueError msgMinMax3)
    else if nMax' ≤ nMin then some (.valueError msgMaxGtMin)
    else if nMax' > tsLen then some (.valueError msgMaxLen)
    else if nMin < polOrd + 2 then some (.valueError (msgMinPolOrd polOrd))
    else none

/-! ## Helper lemmas -/

lemma filterMap_toOpt_eq (ts : List PyFloat) :
    ts.filterMap PyFloat.toOpt = (ts.filter fun v => !v.isnan).map PyFloat.val := by
  induction ts with
  | nil => rfl
  | cons x xs ih => cases x <;> simp [PyFloat.toOpt, PyFloat.isnan, PyFloat.val, ih]

/-! ## Claims -/

/-- C1: the claim asks that `fitFluctuations`, `massExponents` and
`multifractalSpectrum` fail with a `NotComputed`/`NotFitted` error when the
required prior step has not run.  The code does not: on a freshly constructed
session each of the three methods prints a notice and returns `None`
(mfdfa.pyx lines 197, 217, 243), and in a computed-but-unfitted state
`computeMassExponents` raises a `TypeError` from `None * qList`
(line 213), not a NotFitted error.  This theorem evaluates the code at those
failing inputs. -/
theorem preconditionViolations_printAndReturnNone :
    (MFDFA.init [.finite 1, .finite 2, .finite 3]).fitFlucVec (fun x => x) (-999) (-999) 1 =
      .returnedNone ∧
    (MFDFA.init [.finite 1, .finite 2, .finite 3]).computeMassExponents = .returnedNone ∧
    (MFDFA.init [.finite 1, .finite 2, .finite 3]).computeMultifractalSpectrum = .returnedNone ∧
    (MFDFA.mk [1, 2, 3, 4, 5, 6, 7, 8] [3, 4, 5, 6, 7, 8] [[1, 1, 1, 1, 1, 1]]
        none [2] 1 true).computeMassExponents = .raised (.typeError msgNoneTimesArray) :=
  ⟨rfl, rfl, rfl, rfl⟩

/-- C2: in any computed state holding fitted slopes `hs` (one per q-order),
`computeMassExponents` returns the array `tau` with
`tau[i] = hs[i] * qList[i] - 1` for every q-order index `i`, elementwise from
the stored fit slopes. -/
theorem computeMassExponents_eq_H_mul_q_sub_one (st : MFDFA) (hs : List ℚ)
    (hc : st.isComputed = true) (hH : st.listH = some hs)
    (hlen : hs.length = st.qList.length) :
    ∃ tau : List ℚ, st.computeMassExponents = .returned tau ∧
      tau.length = st.qList.length ∧
      ∀ i : ℕ, i < st.qList.length →
        tau.getD i 0 = hs.getD i 0 * st.qList.getD i 0 - 1 := by
  refine ⟨List.zipWith (fun h q => h * q - 1) hs st.qList, ?_, ?_, ?_⟩
  · simp [MFDFA.computeMassExponents, hc, hH]
  · simp [hlen]
  · intro i hi
    have hi1 : i < hs.length := by omega
    have hiz : i < (List.zipWith (fun h q => h * q - 1) hs st.qList).length := by
      simp [hlen]; omega
    rw [List.getD_eq_getElem _ _ hiz, List.getD_eq_getElem _ _ hi1,
      List.getD_eq_getElem _ _ hi, List.getElem_zipWith]

/-- C2 witness: a concrete fitted session with `H = [2]` and `q = [3]`,
whose mass exponent is `2 * 3 - 1 = 5`. -/
theorem computeMassExponents_eq_H_mul_q_sub_one_witness :
    ∃ tau : List ℚ,
      (MFDFA.mk [1, 2, 3, 4] [3, 4] [[1, 1]] (some [2]) [3] 1 true).computeMassExponents =
        .returned tau ∧
      tau.length = (MFDFA.mk [1, 2, 3, 4] [3, 4] [[1, 1]] (some [2]) [3] 1 true).qList.length ∧
      ∀ i : ℕ, i < (MFDFA.mk [1, 2, 3, 4] [3, 4] [[1, 1]] (some [2]) [3] 1 true).qList.length →
        tau.getD i 0 =
          List.getD [(2 : ℚ)] i 0 *
            (MFDFA.mk [1, 2, 3, 4] [3, 4] [[1, 1]] (some [2]) [3] 1 true).qList.getD i 0 - 1 :=
  computeMassExponents_eq_H_mul_q_sub_one _ [2] rfl rfl rfl

/-- C4: construction stores the input with the NaN entries removed and the
non-NaN entries kept in their original relative order (the stored series is
the order-preserving filter of the input), so the stored length equals the
count of non-NaN entries. -/
theorem init_removes_nan_preserves_order (ts : List PyFloat) :
    (MFDFA.init ts).tsVec = (ts.filter fun v => !v.isnan).map PyFloat.val ∧
    (MFDFA.init ts).tsVec.length = ts.countP fun v => !v.isnan := by
  constructor
  · exact filterMap_toOpt_eq ts
  · show (ts.filterMap PyFloat.toOpt).length = _
    rw [filterMap_toOpt_eq ts, List.length_map, List.countP_eq_length_filter]

/-- C10: the `-999` sentinel defaults.  Passing `nMax = -999` to
`computeFlucVec` gives the same result as passing `int(len(tsVec) / 4)`, and
passing `nStart = -999` (resp. `nEnd = -999`) to `fitFlucVec` gives the same
result as passing the first (resp. last) entry of `n` — in every state, so the
literal `-999` never acts as a genuine argument value. -/
theorem sentinel_minus999_defaults :
    (∀ (st : MFDFA) (ff fb : List ℚ → ℤ → ℚ → ℤ → ℤ → ℚ) (nMin : ℤ) (qa : QArg)
        (polOrd nStep : ℤ) (revSeg : Bool),
      st.computeFlucVec ff fb nMin qa (-999) polOrd nStep revSeg =
        st.computeFlucVec ff fb nMin qa ((st.tsVec.length : ℤ) / 4) polOrd nStep revSeg) ∧
    (∀ (st : MFDFA) (log : ℚ → ℚ) (nEnd : ℤ) (logBase : ℚ),
      st.fitFlucVec log (-999) nEnd logBase = st.fitFlucVec log st.n.headI nEnd logBase) ∧
    (∀ (st : MFDFA) (log : ℚ → ℚ) (nStart : ℤ) (logBase : ℚ),
      st.fitFlucVec log nStart (-999) logBase =
        st.fitFlucVec log nStart (st.n.getLastD 0) logBase) := by
  refine ⟨fun st ff fb nMin qa polOrd nStep revSeg => ?_,
    fun st log nEnd logBase => ?_, fun st log nStart logBase => ?_⟩
  · simp [MFDFA.computeFlucVec, ite_self]
  · simp [MFDFA.fitFlucVec, ite_self]
  · simp [MFDFA.fitFlucVec, ite_self]

/-- C3: in any computed state with fitted slopes, `computeMultifractalSpectrum`
raises the insufficient-orders `ValueError` when fewer than two q-orders are
present; with at least two it returns arrays `alpha` and `mfSpect` of
`|qList| - 1` entries each, with `alpha[i] = (tau[i+1] - tau[i]) / (qList[1] -
qList[0])` (the finite difference of consecutive mass exponents over the
spacing of the first pair of q-orders) and `mfSpect[i] = qList[i] * alpha[i] -
tau[i]` (using the lower q-order of each consecutive pair), where `tau` is the
value returned by `computeMassExponents`. -/
theorem computeMultifractalSpectrum_spec (st : MFDFA) (hs : List ℚ)
    (hc : st.isComputed = true) (hH : st.listH = some hs)
    (hlen : hs.length = st.qList.length) :
    (st.qList.length < 2 →
      st.computeMultifractalSpectrum = .raised (.valueError msgQMoments)) ∧
    (2 ≤ st.qList.length →
      ∃ tau alpha mfSpect : List ℚ,
        st.computeMassExponents = .returned tau ∧
        st.computeMultifractalSpectrum = .returned (alpha, mfSpect) ∧
        alpha.length = st.qList.length - 1 ∧
        mfSpect.length = st.qList.length - 1 ∧
        (∀ i : ℕ, i + 1 < st.qList.length →
          alpha.getD i 0 = (tau.getD (i + 1) 0 - tau.getD i 0) /
            (st.qList.getD 1 0 - st.qList.getD 0 0)) ∧
        (∀ i : ℕ, i + 1 < st.qList.length →
          mfSpect.getD i 0 = st.qList.getD i 0 * alpha.getD i 0 - tau.getD i 0)) := by
  constructor
  · intro hlt
    have h1 : ¬ 1 < st.qList.length := by omega
    simp [MFDFA.computeMultifractalSpectrum, hc, h1]
  · intro h2
    have h1 : 1 < st.qList.length := by omega
    set tau := List.zipWith (fun h q => h * q - 1) hs st.qList with htau
    have htauLen : tau.length = st.qList.length := by
      rw [htau, List.length_zipWith, hlen, min_self]
    have hmass : st.computeMassExponents = .returned tau := by
      simp [MFDFA.computeMassExponents, hc, hH, htau]
    set dq := st.qList.getD 1 0 - st.qList.getD 0 0 with hdq
    set diffl := List.zipWith (fun a b => b - a) tau tau.tail with hdiffl
    have hdiffLen : diffl.length = st.qList.length - 1 := by
      rw [hdiffl, List.length_zipWith, List.length_tail, htauLen]
      omega
    set alpha := diffl.map (fun d => d / dq) with halpha
    have halphaLen : alpha.length = st.qList.length - 1 := by
      rw [halpha, List.length_map, hdiffLen]
    set mfSpect := List.zipWith (fun qa t => qa - t)
      (List.zipWith (fun q al => q * al) st.qList.dropLast alpha) tau.dropLast with hmf
    have hmfLen : mfSpect.length = st.qList.length - 1 := by
      rw [hmf, List.length_zipWith, List.length_zipWith, List.length_dropLast,
        List.length_dropLast, halphaLen, htauLen]
      omega
    refine ⟨tau, alpha, mfSpect, hmass, ?_, halphaLen, hmfLen, ?_, ?_⟩
    · simp only [MFDFA.computeMultifractalSpectrum, hc, if_true, h1, hmass, htau,
        hmf, halpha, hdiffl, hdq]
    · intro i hi
      have hia : i < alpha.length := by omega
      have hid : i < diffl.length := by omega
      have hit : i < tau.length := by omega
      have hit1 : i + 1 < tau.length := by omega
      have hitt : i < tau.tail.length := by
        rw [List.length_tail]; omega
      rw [List.getD_eq_getElem _ _ hia, List.getD_eq_getElem _ _ hit1,
        List.getD_eq_getElem _ _ hit]
      simp only [halpha, hdiffl]
      simp [List.getElem_map, List.getElem_zipWith, List.getElem_tail]
    · intro i hi
      have hia : i < alpha.length := by omega
      have him : i < mfSpect.length := by omega
      have hit : i < tau.length := by omega
      have hiq : i < st.qList.length := by omega
      have hitd : i < tau.dropLast.length := by
        rw [List.length_dropLast]; omega
      have hiqd : i < st.qList.dropLast.length := by
        rw [List.length_dropLast]; omega
      have hiz : i < (List.zipWith (fun q al => q * al) st.qList.dropLast alpha).length := by
        rw [List.length_zipWith]; omega
      rw [List.getD_eq_getElem _ _ him, List.getD_eq_getElem _ _ hiq,
        List.getD_eq_getElem _ _ hia, List.getD_eq_getElem _ _ hit]
      simp only [hmf]
      simp [List.getElem_zipWith, List.getElem_dropLast]

/-- C3 witness: a concrete fitted session with two q-orders, `H = [2, 3]`,
`q = [1, 2]`, so `tau = [1, 5]`, `alpha = [(5 - 1) / (2 - 1)] = [4]` and
`mfSpect = [1 * 4 - 1] = [3]`. -/
theorem computeMultifractalSpectrum_spec_witness :
    ((MFDFA.mk [1, 2, 3, 4] [3, 4] [[1, 1], [1, 1]] (some [2, 3]) [1, 2] 1 true).qList.length < 2 →
      (MFDFA.mk [1, 2, 3, 4] [3, 4] [[1, 1], [1, 1]]
        (some [2, 3]) [1, 2] 1 true).computeMultifractalSpectrum =
          .raised (.valueError msgQMoments)) ∧
    (2 ≤ (MFDFA.mk [1, 2, 3, 4] [3, 4] [[1, 1], [1, 1]] (some [2, 3]) [1, 2] 1 true).qList.length →
      ∃ tau alpha mfSpect : List ℚ,
        (MFDFA.mk [1, 2, 3, 4] [3, 4] [[1, 1], [1, 1]]
          (some [2, 3]) [1, 2] 1 true).computeMassExponents = .returned tau ∧
        (MFDFA.mk [1, 2, 3, 4] [3, 4] [[1, 1], [1, 1]]
          (some [2, 3]) [1, 2] 1 true).computeMultifractalSpectrum = .returned (alpha, mfSpect) ∧
        alpha.length = (MFDFA.mk [1, 2, 3, 4] [3, 4] [[1, 1], [1, 1]]
          (some [2, 3]) [1, 2] 1 true).qList.length - 1 ∧
        mfSpect.length = (MFDFA.mk [1, 2, 3, 4] [3, 4] [[1, 1], [1, 1]]
          (some [2, 3]) [1, 2] 1 true).qList.length - 1 ∧
        (∀ i : ℕ, i + 1 < (MFDFA.mk [1, 2, 3, 4] [3, 4] [[1, 1], [1, 1]]
            (some [2, 3]) [1, 2] 1 true).qList.length →
          alpha.getD i 0 = (tau.getD (i + 1) 0 - tau.getD i 0) /
            ((MFDFA.mk [1, 2, 3, 4] [3, 4] [[1, 1], [1, 1]]
                (some [2, 3]) [1, 2] 1 true).qList.getD 1 0 -
              (MFDFA.mk [1, 2, 3, 4] [3, 4] [[1, 1], [1, 1]]
                (some [2, 3]) [1, 2] 1 true).qList.getD 0 0)) ∧
        (∀ i : ℕ, i + 1 < (MFDFA.mk [1, 2, 3, 4] [3, 4] [[1, 1], [1, 1]]
            (some [2, 3]) [1, 2] 1 true).qList.length →
          mfSpect.getD i 0 = (MFDFA.mk [1, 2, 3, 4] [3, 4] [[1, 1], [1, 1]]
              (some [2, 3]) [1, 2] 1 true).qList.getD i 0 * alpha.getD i 0 - tau.getD i 0)) :=
  computeMultifractalSpectrum_spec _ [2, 3] rfl rfl rfl

/-- C5 counterexample: the claim asks that construction fail with
`InvalidInput` when no finite value remains after NaN removal.  The
constructor body (mfdfa.pyx lines 55-58) performs no validation and contains
no raise: on an all-NaN input it succeeds and stores the empty series. -/
theorem init_allNaN_does_not_raise :
    MFDFA.initE [PyFloat.nan, PyFloat.nan] = .ok (MFDFA.init [PyFloat.nan, PyFloat.nan]) ∧
    (MFDFA.initE [PyFloat.nan, PyFloat.nan]).isOk = true ∧
    (MFDFA.init [PyFloat.nan, PyFloat.nan]).tsVec = [] :=
  ⟨rfl, rfl, rfl⟩

/-- C5 amended: construction never fails; an input whose entries are all NaN
yields a session whose stored series is empty, and the rejection happens
downstream instead — every `computeFlucVec` call on such a session raises a
`ValueError` during scale validation (with `tsLen = 0`, either an explicit
check fails or `nMax > tsLen` does). -/
theorem init_never_raises_emptySeries_rejected_downstream (ts : List PyFloat)
    (ff fb : List ℚ → ℤ → ℚ → ℤ → ℤ → ℚ) (nMin : ℤ) (qa : QArg)
    (nMax polOrd nStep : ℤ) (revSeg : Bool)
    (hnan : ∀ v ∈ ts, v.isnan = true) :
    MFDFA.initE ts = .ok (MFDFA.init ts) ∧
    (MFDFA.init ts).tsVec = [] ∧
    ∃ m : String, (MFDFA.init ts).computeFlucVec ff fb nMin qa nMax polOrd nStep revSeg =
      .raised (.valueError m) := by
  have hempty : (MFDFA.init ts).tsVec = [] := by
    show ts.filterMap PyFloat.toOpt = []
    rw [List.filterMap_eq_nil_iff]
    intro v hv
    have hv2 := hnan v hv
    cases v with
    | nan => rfl
    | finite x => simp [PyFloat.isnan] at hv2
  refine ⟨rfl, hempty, ?_⟩
  simp only [MFDFA.computeFlucVec, hempty, List.length_nil, Nat.cast_zero]
  split_ifs <;> first
    | exact ⟨_, rfl⟩
    | omega

/-- C5 witness for the amended claim: the all-NaN input `[nan]`, with a
`computeFlucVec` call whose parameters would be valid on a long series. -/
theorem init_never_raises_emptySeries_rejected_downstream_witness :
    (∀ v ∈ [PyFloat.nan], v.isnan = true) ∧
    (MFDFA.initE [PyFloat.nan] = .ok (MFDFA.init [PyFloat.nan]) ∧
      (MFDFA.init [PyFloat.nan]).tsVec = [] ∧
      ∃ m : String, (MFDFA.init [PyFloat.nan]).computeFlucVec (fun _ _ _ _ _ => 0)
        (fun _ _ _ _ _ => 0) 4 (.pyFloat 2) 20 1 1 false = .raised (.valueError m)) :=
  ⟨by decide,
    init_never_raises_emptySeries_rejected_downstream [PyFloat.nan] (fun _ _ _ _ _ => 0)
      (fun _ _ _ _ _ => 0) 4 (.pyFloat 2) 20 1 1 false (by decide)⟩

/-- C6: precedence of the scale-parameter checks.  `computeFlucVec` raises a
`ValueError` with message `m` exactly when the first failing check of the
spec-ordered list (`polynomialOrder < 1`; `nStep < 1`; `nMax < 3 or nMin < 3`;
`nMax <= nMin`; `nMax > N`; `nMin < polynomialOrder + 2`, with the defaulted
`nMax` substituted in its place) produces `m` — so when several checks would
fail, the error raised is the earliest one in this order, one distinct error
per check. -/
theorem computeFlucVec_validation_precedence (st : MFDFA)
    (ff fb : List ℚ → ℤ → ℚ → ℤ → ℤ → ℚ) (nMin : ℤ) (qa : QArg)
    (nMax polOrd nStep : ℤ) (revSeg : Bool) (m : String) :
    st.computeFlucVec ff fb nMin qa nMax polOrd nStep revSeg = .raised (.valueError m) ↔
      scaleCheckError st.tsVec.length nMin nMax polOrd nStep = some (.valueError m) := by
  simp only [MFDFA.computeFlucVec, scaleCheckError]
  split_ifs <;> cases qa <;> simp [coerceQList]

/-- C6 witness: with `polOrd = 0`, `nStep = 0` and `nMin = 2` all failing at
once, the error raised is the polynomial-order one, first in the precedence
order. -/
theorem computeFlucVec_validation_precedence_witness :
    (MFDFA.init (List.replicate 100 (.finite 1))).computeFlucVec (fun _ _ _ _ _ => 0)
      (fun _ _ _ _ _ => 0) 2 (.pyFloat 2) 5 0 0 false = .raised (.valueError msgPolOrd) :=
  (computeFlucVec_validation_precedence _ _ _ _ _ _ _ _ _ _).mpr rfl

/-- C8 counterexample: the claim says `computeFlucVec` accepts any single real
number and any sequence of reals, and rejects every other form with an
`InvalidParameter` error.  The code accepts only `float`, `list` and
`np.ndarray`: a Python `int` (a single real number) and a tuple of reals (a
sequence of reals) are both rejected — and the rejection raises `NameError`
(the message-formatting expression references the unbound name `q_list`,
mfdfa.pyx line 134), not the intended `ValueError`. -/
theorem qArg_int_and_tuple_rejected :
    coerceQList (QArg.pyInt 2) = .error (.nameError "q_list") ∧
    coerceQList (QArg.pyTuple [1, 2]) = .error (.nameError "q_list") ∧
    (MFDFA.init (List.replicate 100 (.finite 1))).computeFlucVec (fun _ _ _ _ _ => 0)
      (fun _ _ _ _ _ => 0) 4 (.pyInt 2) 20 1 1 false = .raised (.nameError "q_list") ∧
    (MFDFA.init (List.replicate 100 (.finite 1))).computeFlucVec (fun _ _ _ _ _ => 0)
      (fun _ _ _ _ _ => 0) 4 (.pyTuple [1, 2]) 20 1 1 false = .raised (.nameError "q_list") :=
  ⟨rfl, rfl, rfl, rfl⟩

/-- C8 amended: when the scale parameters pass validation, `computeFlucVec`
accepts exactly a single float (wrapped into a one-element q-order array), a
list of reals, or an ndarray of reals (taken as the q-order array), and
rejects every other argument form — including a single integer and a tuple of
reals — by raising a `NameError` for `q_list` (not the intended
`ValueError`, whose formatting line names an unbound variable). -/
lemma computeFlucVec_ok_reduce (st : MFDFA)
    (ff fb : List ℚ → ℤ → ℚ → ℤ → ℤ → ℚ) (nMin nMax polOrd nStep : ℤ) (revSeg : Bool)
    (qa : QArg) (hok : scaleCheckError st.tsVec.length nMin nMax polOrd nStep = none) :
    st.computeFlucVec ff fb nMin qa nMax polOrd nStep revSeg =
      (match coerceQList qa with
       | .error e => .raised e
       | .ok qs =>
         let r := st.cy_computeFlucVec ff fb st.tsVec.length nMin qs
           (if nMax = -999 then (st.tsVec.length : ℤ) / 4 else nMax) polOrd nStep revSeg
         .returned (r.1, r.2.1, { r.2.2 with n := r.1, F := r.2.1, isComputed := true })) := by
  simp only [MFDFA.computeFlucVec]
  simp only [scaleCheckError] at hok
  split_ifs at hok ⊢ <;> simp_all

theorem computeFlucVec_qList_coercion (st : MFDFA)
    (ff fb : List ℚ → ℤ → ℚ → ℤ → ℤ → ℚ) (nMin nMax polOrd nStep : ℤ) (revSeg : Bool)
    (hok : scaleCheckError st.tsVec.length nMin nMax polOrd nStep = none) :
    (∀ x : ℚ, ∃ r, st.computeFlucVec ff fb nMin (.pyFloat x) nMax polOrd nStep revSeg =
      .returned r ∧ r.2.2.qList = [x]) ∧
    (∀ xs : List ℚ, ∃ r, st.computeFlucVec ff fb nMin (.pyList xs) nMax polOrd nStep revSeg =
      .returned r ∧ r.2.2.qList = xs) ∧
    (∀ xs : List ℚ, ∃ r, st.computeFlucVec ff fb nMin (.pyNdarray xs) nMax polOrd nStep revSeg =
      .returned r ∧ r.2.2.qList = xs) ∧
    (∀ k : ℤ, st.computeFlucVec ff fb nMin (.pyInt k) nMax polOrd nStep revSeg =
      .raised (.nameError "q_list")) ∧
    (∀ xs : List ℚ, st.computeFlucVec ff fb nMin (.pyTuple xs) nMax polOrd nStep revSeg =
      .raised (.nameError "q_list")) := by
  refine ⟨fun x => ?_, fun xs => ?_, fun xs => ?_, fun k => ?_, fun xs => ?_⟩ <;>
    rw [computeFlucVec_ok_reduce st ff fb nMin nMax polOrd nStep revSeg _ hok]
  · exact ⟨_, rfl, rfl⟩
  · exact ⟨_, rfl, rfl⟩
  · exact ⟨_, rfl, rfl⟩
  · rfl
  · rfl

/-- C8 witness for the amended claim: a 100-point session with valid scale
parameters. -/
theorem computeFlucVec_qList_coercion_witness :
    scaleCheckError (MFDFA.init (List.replicate 100 (.finite 1))).tsVec.length 4 20 1 1 = none ∧
    ((∀ x : ℚ, ∃ r, (MFDFA.init (List.replicate 100 (.finite 1))).computeFlucVec
        (fun _ _ _ _ _ => 0) (fun _ _ _ _ _ => 0) 4 (.pyFloat x) 20 1 1 false =
        .returned r ∧ r.2.2.qList = [x]) ∧
      (∀ xs : List ℚ, ∃ r, (MFDFA.init (List.replicate 100 (.finite 1))).computeFlucVec
        (fun _ _ _ _ _ => 0) (fun _ _ _ _ _ => 0) 4 (.pyList xs) 20 1 1 false =
        .returned r ∧ r.2.2.qList = xs) ∧
      (∀ xs : List ℚ, ∃ r, (MFDFA.init (List.replicate 100 (.finite 1))).computeFlucVec
        (fun _ _ _ _ _ => 0) (fun _ _ _ _ _ => 0) 4 (.pyNdarray xs) 20 1 1 false =
        .returned r ∧ r.2.2.qList = xs) ∧
      (∀ k : ℤ, (MFDFA.init (List.replicate 100 (.finite 1))).computeFlucVec
        (fun _ _ _ _ _ => 0) (fun _ _ _ _ _ => 0) 4 (.pyInt k) 20 1 1 false =
        .raised (.nameError "q_list")) ∧
      (∀ xs : List ℚ, (MFDFA.init (List.replicate 100 (.finite 1))).computeFlucVec
        (fun _ _ _ _ _ => 0) (fun _ _ _ _ _ => 0) 4 (.pyTuple xs) 20 1 1 false =
        .raised (.nameError "q_list"))) :=
  ⟨rfl, computeFlucVec_qList_coercion _ _ _ _ _ _ _ false rfl⟩

/-- Ceiling of an integer fraction with positive denominator, as integer
division of the adjusted numerator. -/
lemma ceil_intCast_div (a s : ℤ) (hs : 0 < s) :
    ⌈(a : ℚ) / (s : ℚ)⌉ = (a + s - 1) / s := by
  have hs0 : (0 : ℚ) < (s : ℚ) := by exact_mod_cast hs
  have hq : s * ((a + s - 1) / s) + (a + s - 1) % s = a + s - 1 := Int.ediv_add_emod _ _
  have hr0 : 0 ≤ (a + s - 1) % s := Int.emod_nonneg _ (by omega)
  have hrs : (a + s - 1) % s < s := Int.emod_lt_of_pos _ hs
  rw [Int.ceil_eq_iff]
  constructor
  · rw [lt_div_iff hs0]
    have hi : ((a + s - 1) / s - 1) * s < a := by nlinarith [hq, hr0]
    exact_mod_cast hi
  · rw [div_le_iff hs0]
    have hi : a ≤ (a + s - 1) / s * s := by nlinarith [hq, hrs]
    exact_mod_cast hi

/-- C7: for valid parameters, the window-size array generated by
`cy_computeFlucVec` is `np.arange(nMin, nMax + 1, nStep)`: strictly
increasing, every entry within `[nMin, nMax]`, first entry `nMin`,
consecutive entries differing by `nStep`, and with exactly
`⌈(nMax - nMin + 1) / nStep⌉` entries. -/
theorem scaleSet_spec (st : MFDFA) (ff fb : List ℚ → ℤ → ℚ → ℤ → ℤ → ℚ)
    (tsLen nMin nMax polOrd nStep : ℤ) (qs : List ℚ) (revSeg : Bool)
    (hpol : 1 ≤ polOrd) (hmin3 : 3 ≤ nMin) (hlt : nMin < nMax) (hmaxlen : nMax ≤ tsLen)
    (hstep : 1 ≤ nStep) (hminpol : polOrd + 2 ≤ nMin) :
    (st.cy_computeFlucVec ff fb tsLen nMin qs nMax polOrd nStep revSeg).1 =
      arange nMin (nMax + 1) nStep ∧
    List.Pairwise (· < ·) (arange nMin (nMax + 1) nStep) ∧
    (∀ w ∈ arange nMin (nMax + 1) nStep, nMin ≤ w ∧ w ≤ nMax) ∧
    (arange nMin (nMax + 1) nStep).headI = nMin ∧
    (∀ i : ℕ, i + 1 < (arange nMin (nMax + 1) nStep).length →
      (arange nMin (nMax + 1) nStep).getD (i + 1) 0 =
        (arange nMin (nMax + 1) nStep).getD i 0 + nStep) ∧
    (arange nMin (nMax + 1) nStep).length =
      (⌈((nMax : ℚ) - (nMin : ℚ) + 1) / (nStep : ℚ)⌉).toNat := by
  have hs : 0 < nStep := by omega
  have hnum : nMax + 1 - nMin + nStep - 1 = nMax - nMin + nStep := by ring
  have harl : (arange nMin (nMax + 1) nStep).length =
      ((nMax - nMin + nStep) / nStep).toNat := by
    rw [arange, List.length_map, List.length_range, hnum]
  have hq : nStep * ((nMax - nMin + nStep) / nStep) + (nMax - nMin + nStep) % nStep =
      nMax - nMin + nStep := Int.ediv_add_emod _ _
  have hr0 : 0 ≤ (nMax - nMin + nStep) % nStep := Int.emod_nonneg _ (by omega)
  have hrs : (nMax - nMin + nStep) % nStep < nStep := Int.emod_lt_of_pos _ hs
  have hL1 : 1 ≤ (nMax - nMin + nStep) / nStep := by
    rw [Int.le_ediv_iff_mul_le hs]; omega
  refine ⟨rfl, ?_, ?_, ?_, ?_, ?_⟩
  · simp only [arange, List.pairwise_map]
    refine (List.pairwise_lt_range _).imp ?_
    intro a b hab
    have hab' : (a : ℤ) * nStep < (b : ℤ) * nStep :=
      mul_lt_mul_of_pos_right (by exact_mod_cast hab) hs
    linarith
  · intro w hw
    simp only [arange, List.mem_map, List.mem_range] at hw
    obtain ⟨k, hk, rfl⟩ := hw
    rw [hnum] at hk
    have hkq : (k : ℤ) ≤ (nMax - nMin + nStep) / nStep - 1 := by omega
    have hmul : (k : ℤ) * nStep ≤ ((nMax - nMin + nStep) / nStep - 1) * nStep :=
      mul_le_mul_of_nonneg_right hkq (by omega)
    have hk0 : 0 ≤ (k : ℤ) * nStep := mul_nonneg (by positivity) (by omega)
    constructor
    · linarith
    · linarith [hq, hr0, hmul]
  · obtain ⟨m, hm⟩ : ∃ m, ((nMax + 1 - nMin + nStep - 1) / nStep).toNat = m + 1 := by
      refine ⟨((nMax + 1 - nMin + nStep - 1) / nStep).toNat - 1, ?_⟩
      rw [hnum]
      omega
    simp only [arange, hm, List.range_succ_eq_map]
    simp
  · intro i hi
    have hgi : i < (arange nMin (nMax + 1) nStep).length := by omega
    rw [List.getD_eq_getElem _ _ hi, List.getD_eq_getElem _ _ hgi]
    simp only [arange, List.getElem_map, List.getElem_range]
    push_cast
    ring
  · rw [harl]
    have hcast : ((nMax : ℚ) - (nMin : ℚ) + 1) = ((nMax - nMin + 1 : ℤ) : ℚ) := by
      push_cast
      ring
    rw [hcast, ceil_intCast_div _ _ hs]
    have hnum2 : nMax - nMin + 1 + nStep - 1 = nMax - nMin + nStep := by ring
    rw [hnum2]

/-- C7 witness: `nMin = 4`, `nMax = 20`, `nStep = 3` on a 100-point series
gives the scales `4, 7, 10, 13, 16, 19` — six entries, `⌈17 / 3⌉ = 6`. -/
theorem scaleSet_spec_witness :
    (1 ≤ (1 : ℤ) ∧ 3 ≤ (4 : ℤ) ∧ (4 : ℤ) < 20 ∧ (20 : ℤ) ≤ 100 ∧ 1 ≤ (3 : ℤ) ∧
      (1 : ℤ) + 2 ≤ 4) ∧
    (((MFDFA.init (List.replicate 100 (.finite 1))).cy_computeFlucVec (fun _ _ _ _ _ => 0)
        (fun _ _ _ _ _ => 0) 100 4 [2] 20 1 3 false).1 = arange 4 (20 + 1) 3 ∧
      List.Pairwise (· < ·) (arange 4 (20 + 1) 3) ∧
      (∀ w ∈ arange 4 (20 + 1) 3, 4 ≤ w ∧ w ≤ 20) ∧
      (arange 4 (20 + 1) 3).headI = 4 ∧
      (∀ i : ℕ, i + 1 < (arange 4 (20 + 1) 3).length →
        (arange 4 (20 + 1) 3).getD (i + 1) 0 = (arange 4 (20 + 1) 3).getD i 0 + 3) ∧
      (arange 4 (20 + 1) 3).length = (⌈((20 : ℚ) - (4 : ℚ) + 1) / (3 : ℚ)⌉).toNat) :=
  ⟨⟨by decide, by decide, by decide, by decide, by decide, by decide⟩,
    scaleSet_spec _ _ _ _ _ _ _ _ _ _ (by decide) (by decide) (by decide) (by decide)
      (by decide) (by decide)⟩

/-- The first entry of an arithmetic progression. -/
lemma prog_headI (a s : ℤ) (L : ℕ) (hL : 0 < L) :
    ((List.range L).map fun (k : ℕ) => a + (k : ℤ) * s).headI = a := by
  obtain ⟨m, rfl⟩ : ∃ m, L = m + 1 := ⟨L - 1, by omega⟩
  rw [List.range_succ_eq_map]
  simp

/-- Membership in an arithmetic progression. -/
lemma prog_mem (a s : ℤ) (L : ℕ) (w : ℤ) :
    (w ∈ (List.range L).map fun (k : ℕ) => a + (k : ℤ) * s) ↔
      ∃ k : ℕ, k < L ∧ w = a + (k : ℤ) * s := by
  simp only [List.mem_map, List.mem_range]
  constructor
  · rintro ⟨k, hk, rfl⟩
    exact ⟨k, hk, rfl⟩
  · rintro ⟨k, hk, rfl⟩
    exact ⟨k, hk, rfl⟩

/-- Length of a Python closed slice. -/
lemma pySlice_length {α : Type} (l : List α) (i j : ℕ) :
    (pySlice l i j).length = min (j + 1 - i) (l.length - i) := by
  simp [pySlice]

/-- Entries of a Python closed slice. -/
lemma pySlice_getElem {α : Type} (l : List α) (i j m : ℕ) (h : m < (pySlice l i j).length)
    (h2 : i + m < l.length) : (pySlice l i j)[m] = l[i + m] := by
  simp only [pySlice]
  rw [List.getElem_take, List.getElem_drop]

/-- C9: `fitFlucVec` on a computed state whose scale set is the arithmetic
progression `a, a + s, ..., a + (L-1)s` (as `computeFlucVec` produces).
First, the `-999` sentinels default `nStart`/`nEnd` to the first/last scale.
Second, an explicitly supplied pair is rejected with a `ValueError` unless
`nStart ≤ nEnd`, both lie within the first/last scale, and both are members of
the scale set.  Third, on success the method returns, for each q-order `i`,
the slope and intercept of the degree-1 least-squares fit (`polyfit1`) of
`log F[i]` against `log n` — both divided by `log logBase` — restricted to the
closed sub-range of scale positions `k₀..k₁` where `n[k₀] = nStart` and
`n[k₁] = nEnd` (that sub-range holds exactly the scales `w` with
`nStart ≤ w ≤ nEnd`), and it stores the slopes in `listH`. -/
theorem fitFlucVec_spec (st : MFDFA) (log : ℚ → ℚ) (logBase : ℚ) (a s : ℤ) (L : ℕ)
    (nStart nEnd : ℤ)
    (hc : st.isComputed = true)
    (hn : st.n = (List.range L).map fun (k : ℕ) => a + (k : ℤ) * s)
    (hstep : st.nStep = s) (hs : 0 < s) (hL : 0 < L)
    (hS : nStart ≠ -999) (hE : nEnd ≠ -999) :
    (st.fitFlucVec log (-999) (-999) logBase =
      st.fitFlucVec log st.n.headI (st.n.getLastD 0) logBase) ∧
    (¬ (nStart ≤ nEnd ∧ st.n.headI ≤ nStart ∧ nEnd ≤ st.n.getLastD 0 ∧
        nStart ∈ st.n ∧ nEnd ∈ st.n) →
      ∃ m : String, st.fitFlucVec log nStart nEnd logBase = .raised (.valueError m)) ∧
    ((nStart ≤ nEnd ∧ st.n.headI ≤ nStart ∧ nEnd ≤ st.n.getLastD 0 ∧
        nStart ∈ st.n ∧ nEnd ∈ st.n) →
      ∃ k₀ k₁ : ℕ, k₀ ≤ k₁ ∧ k₁ < L ∧ nStart = a + (k₀ : ℤ) * s ∧ nEnd = a + (k₁ : ℤ) * s ∧
        (∀ w : ℤ, w ∈ pySlice st.n k₀ k₁ ↔ w ∈ st.n ∧ nStart ≤ w ∧ w ≤ nEnd) ∧
        ∃ slopes intercepts : List ℚ,
          st.fitFlucVec log nStart nEnd logBase =
            .returned (slopes, intercepts, { st with listH := some slopes }) ∧
          slopes.length = st.qList.length ∧ intercepts.length = st.qList.length ∧
          ∀ i : ℕ, i < st.qList.length →
            slopes.getD i 0 = (polyfit1
                ((pySlice st.n k₀ k₁).map fun w => log (w : ℚ) / log logBase)
                ((pySlice (st.F.getD i []) k₀ k₁).map fun v => log v / log logBase)).1 ∧
            intercepts.getD i 0 = (polyfit1
                ((pySlice st.n k₀ k₁).map fun w => log (w : ℚ) / log logBase)
                ((pySlice (st.F.getD i []) k₀ k₁).map fun v => log v / log logBase)).2) := by
  have hhead : st.n.headI = a := by rw [hn]; exact prog_headI a s L hL
  have hs0 : (0 : ℤ) ≤ s := le_of_lt hs
  refine ⟨?_, ?_, ?_⟩
  · simp [MFDFA.fitFlucVec, ite_self]
  · intro hncond
    by_cases h1 : nStart > nEnd
    · exact ⟨msgFitOrder, by simp [MFDFA.fitFlucVec, hc, hS, hE, h1]⟩
    · by_cases h2 : nStart < st.n.headI ∨ nEnd > st.n.getLastD 0
      · exact ⟨msgFitInterval st.n.headI (st.n.getLastD 0),
          by simp only [MFDFA.fitFlucVec, hc, if_true]
             rw [if_neg hS, if_neg hE, if_neg h1, if_pos h2]⟩
      · have h3 : nStart ∉ st.n ∨ nEnd ∉ st.n := by
          by_contra h
          push_neg at h h2
          exact hncond ⟨not_lt.mp h1, h2.1, h2.2, h.1, h.2⟩
        refine ⟨msgFitMember, ?_⟩
        simp only [MFDFA.fitFlucVec, hc, if_true]
        rw [if_neg hS, if_neg hE, if_neg h1, if_neg h2, if_pos h3]
  · rintro ⟨h1, h2, h3, h4, h5⟩
    have h1' : ¬ nStart > nEnd := not_lt.mpr h1
    have h2' : ¬ (nStart < st.n.headI ∨ nEnd > st.n.getLastD 0) := by
      push_neg
      exact ⟨h2, h3⟩
    have h3' : ¬ (nStart ∉ st.n ∨ nEnd ∉ st.n) := by
      push_neg
      exact ⟨h4, h5⟩
    have h4' := h4
    have h5' := h5
    rw [hn, prog_mem] at h4' h5'
    obtain ⟨k₀, hk₀L, hk₀⟩ := h4'
    obtain ⟨k₁, hk₁L, hk₁⟩ := h5'
    have hk01 : k₀ ≤ k₁ := by
      have hmul : (k₀ : ℤ) * s ≤ (k₁ : ℤ) * s := by
        rw [hk₀, hk₁] at h1
        linarith
      have := le_of_mul_le_mul_right hmul hs
      exact_mod_cast this
    have hstart : ((nStart - st.n.headI) / st.nStep).toNat = k₀ := by
      rw [hhead, hstep, hk₀]
      have hsub : a + (k₀ : ℤ) * s - a = (k₀ : ℤ) * s := by ring
      rw [hsub, Int.mul_ediv_cancel _ (by omega)]
      simp
    have hend : ((nEnd - st.n.headI) / st.nStep).toNat = k₁ := by
      rw [hhead, hstep, hk₁]
      have hsub : a + (k₁ : ℤ) * s - a = (k₁ : ℤ) * s := by ring
      rw [hsub, Int.mul_ediv_cancel _ (by omega)]
      simp
    refine ⟨k₀, k₁, hk01, hk₁L, hk₀, hk₁, ?_, ?_⟩
    · intro w
      constructor
      · intro hw
        rw [List.mem_iff_getElem] at hw
        obtain ⟨j, hj, hjw⟩ := hw
        have hj2 := hj
        rw [pySlice_length, hn, List.length_map, List.length_range] at hj2
        have hb : k₀ + j < st.n.length := by
          rw [hn, List.length_map, List.length_range]
          omega
        rw [pySlice_getElem st.n k₀ k₁ j hj hb] at hjw
        simp only [hn, List.getElem_map, List.getElem_range] at hjw
        have hjk : k₀ + j ≤ k₁ := by omega
        have hjL : k₀ + j < L := by omega
        refine ⟨?_, ?_, ?_⟩
        · rw [hn, prog_mem]
          exact ⟨k₀ + j, hjL, hjw.symm⟩
        · rw [hk₀, ← hjw]
          have : (k₀ : ℤ) * s ≤ ((k₀ + j : ℕ) : ℤ) * s :=
            mul_le_mul_of_nonneg_right (by exact_mod_cast Nat.le_add_right k₀ j) hs0
          linarith
        · rw [hk₁, ← hjw]
          have : ((k₀ + j : ℕ) : ℤ) * s ≤ (k₁ : ℤ) * s :=
            mul_le_mul_of_nonneg_right (by exact_mod_cast hjk) hs0
          linarith
      · rintro ⟨hwmem, hwlo, hwhi⟩
        rw [hn, prog_mem] at hwmem
        obtain ⟨k, hkL, rfl⟩ := hwmem
        have hk₀k : k₀ ≤ k := by
          rw [hk₀] at hwlo
          have hmul : (k₀ : ℤ) * s ≤ (k : ℤ) * s := by linarith
          have := le_of_mul_le_mul_right hmul hs
          exact_mod_cast this
        have hkk₁ : k ≤ k₁ := by
          rw [hk₁] at hwhi
          have hmul : (k : ℤ) * s ≤ (k₁ : ℤ) * s := by linarith
          have := le_of_mul_le_mul_right hmul hs
          exact_mod_cast this
        rw [List.mem_iff_getElem]
        have hjlen : k - k₀ < (pySlice st.n k₀ k₁).length := by
          rw [pySlice_length, hn, List.length_map, List.length_range]
          omega
        have hb2 : k₀ + (k - k₀) < st.n.length := by
          rw [hn, List.length_map, List.length_range]
          omega
        refine ⟨k - k₀, hjlen, ?_⟩
        rw [pySlice_getElem st.n k₀ k₁ (k - k₀) hjlen hb2]
        simp only [hn, List.getElem_map, List.getElem_range]
        have hadd : k₀ + (k - k₀) = k := by omega
        rw [hadd]
    · refine ⟨((List.range st.qList.length).map fun i => polyfit1
          ((pySlice st.n k₀ k₁).map fun w => log (w : ℚ) / log logBase)
          ((pySlice (st.F.getD i []) k₀ k₁).map fun v =>
            log v / log logBase)).map Prod.fst,
        ((List.range st.qList.length).map fun i => polyfit1
          ((pySlice st.n k₀ k₁).map fun w => log (w : ℚ) / log logBase)
          ((pySlice (st.F.getD i []) k₀ k₁).map fun v =>
            log v / log logBase)).map Prod.snd, ?_, ?_, ?_, ?_⟩
      · simp only [MFDFA.fitFlucVec, hc, if_true]
        rw [if_neg hS, if_neg hE, if_neg h1', if_neg h2', if_neg h3', hstart, hend]
      · simp
      · simp
      · intro i hi
        have hil : i < (((List.range st.qList.length).map fun i => polyfit1
            ((pySlice st.n k₀ k₁).map fun w => log (w : ℚ) / log logBase)
            ((pySlice (st.F.getD i []) k₀ k₁).map fun v =>
              log v / log logBase)).map Prod.fst).length := by
          simpa using hi
        have hil2 : i < (((List.range st.qList.length).map fun i => polyfit1
            ((pySlice st.n k₀ k₁).map fun w => log (w : ℚ) / log logBase)
            ((pySlice (st.F.getD i []) k₀ k₁).map fun v =>
              log v / log logBase)).map Prod.snd).length := by
          simpa using hi
        rw [List.getD_eq_getElem _ _ hil, List.getD_eq_getElem _ _ hil2]
        simp [List.getElem_map, List.getElem_range]

/-- C9 witness: a concrete computed session with scales `3, 4, 5` (so `a = 3`,
`s = 1`, `L = 3`), one q-order, the identity in place of `np.log`, `logBase =
3`, and the explicit fit range `nStart = 3`, `nEnd = 5`. -/
theorem fitFlucVec_spec_witness :
    ((MFDFA.mk [1, 2, 3, 4, 5, 6] [3, 4, 5] [[1, 2, 3]] none [2] 1 true).isComputed = true ∧
      (MFDFA.mk [1, 2, 3, 4, 5, 6] [3, 4, 5] [[1, 2, 3]] none [2] 1 true).n =
        ((List.range 3).map fun (k : ℕ) => 3 + (k : ℤ) * 1) ∧
      (MFDFA.mk [1, 2, 3, 4, 5, 6] [3, 4, 5] [[1, 2, 3]] none [2] 1 true).nStep = 1 ∧
      (0 : ℤ) < 1 ∧ 0 < 3 ∧ (3 : ℤ) ≠ -999 ∧ (5 : ℤ) ≠ -999) ∧
    (((MFDFA.mk [1, 2, 3, 4, 5, 6] [3, 4, 5] [[1, 2, 3]] none [2] 1 true).fitFlucVec
        (fun x => x) (-999) (-999) 3 =
      (MFDFA.mk [1, 2, 3, 4, 5, 6] [3, 4, 5] [[1, 2, 3]] none [2] 1 true).fitFlucVec
        (fun x => x)
        (MFDFA.mk [1, 2, 3, 4, 5, 6] [3, 4, 5] [[1, 2, 3]] none [2] 1 true).n.headI
        ((MFDFA.mk [1, 2, 3, 4, 5, 6] [3, 4, 5] [[1, 2, 3]] none [2] 1 true).n.getLastD 0)
        3) ∧
    (¬ ((3 : ℤ) ≤ 5 ∧
        (MFDFA.mk [1, 2, 3, 4, 5, 6] [3, 4, 5] [[1, 2, 3]] none [2] 1 true).n.headI ≤ 3 ∧
        (5 : ℤ) ≤ (MFDFA.mk [1, 2, 3, 4, 5, 6] [3, 4, 5] [[1, 2, 3]]
          none [2] 1 true).n.getLastD 0 ∧
        (3 : ℤ) ∈ (MFDFA.mk [1, 2, 3, 4, 5, 6] [3, 4, 5] [[1, 2, 3]] none [2] 1 true).n ∧
        (5 : ℤ) ∈ (MFDFA.mk [1, 2, 3, 4, 5, 6] [3, 4, 5] [[1, 2, 3]] none [2] 1 true).n) →
      ∃ m : String, (MFDFA.mk [1, 2, 3, 4, 5, 6] [3, 4, 5] [[1, 2, 3]]
          none [2] 1 true).fitFlucVec (fun x => x) 3 5 3 = .raised (.valueError m)) ∧
    (((3 : ℤ) ≤ 5 ∧
        (MFDFA.mk [1, 2, 3, 4, 5, 6] [3, 4, 5] [[1, 2, 3]] none [2] 1 true).n.headI ≤ 3 ∧
        (5 : ℤ) ≤ (MFDFA.mk [1, 2, 3, 4, 5, 6] [3, 4, 5] [[1, 2, 3]]
          none [2] 1 true).n.getLastD 0 ∧
        (3 : ℤ) ∈ (MFDFA.mk [1, 2, 3, 4, 5, 6] [3, 4, 5] [[1, 2, 3]] none [2] 1 true).n ∧
        (5 : ℤ) ∈ (MFDFA.mk [1, 2, 3, 4, 5, 6] [3, 4, 5] [[1, 2, 3]] none [2] 1 true).n) →
      ∃ k₀ k₁ : ℕ, k₀ ≤ k₁ ∧ k₁ < 3 ∧ (3 : ℤ) = 3 + (k₀ : ℤ) * 1 ∧
        (5 : ℤ) = 3 + (k₁ : ℤ) * 1 ∧
        (∀ w : ℤ, w ∈ pySlice
            (MFDFA.mk [1, 2, 3, 4, 5, 6] [3, 4, 5] [[1, 2, 3]] none [2] 1 true).n k₀ k₁ ↔
          w ∈ (MFDFA.mk [1, 2, 3, 4, 5, 6] [3, 4, 5] [[1, 2, 3]] none [2] 1 true).n ∧
            3 ≤ w ∧ w ≤ 5) ∧
        ∃ slopes intercepts : List ℚ,
          (MFDFA.mk [1, 2, 3, 4, 5, 6] [3, 4, 5] [[1, 2, 3]] none [2] 1 true).fitFlucVec
              (fun x => x) 3 5 3 =
            .returned (slopes, intercepts,
              { MFDFA.mk [1, 2, 3, 4, 5, 6] [3, 4, 5] [[1, 2, 3]] none [2] 1 true with
                listH := some slopes }) ∧
          slopes.length = (MFDFA.mk [1, 2, 3, 4, 5, 6] [3, 4, 5] [[1, 2, 3]]
            none [2] 1 true).qList.length ∧
          intercepts.length = (MFDFA.mk [1, 2, 3, 4, 5, 6] [3, 4, 5] [[1, 2, 3]]
            none [2] 1 true).qList.length ∧
          ∀ i : ℕ, i < (MFDFA.mk [1, 2, 3, 4, 5, 6] [3, 4, 5] [[1, 2, 3]]
              none [2] 1 true).qList.length →
            slopes.getD i 0 = (polyfit1
                ((pySlice (MFDFA.mk [1, 2, 3, 4, 5, 6] [3, 4, 5] [[1, 2, 3]]
                  none [2] 1 true).n k₀ k₁).map fun w => (w : ℚ) / (3 : ℚ))
                ((pySlice ((MFDFA.mk [1, 2, 3, 4, 5, 6] [3, 4, 5] [[1, 2, 3]]
                  none [2] 1 true).F.getD i []) k₀ k₁).map fun v => v / (3 : ℚ))).1 ∧
            intercepts.getD i 0 = (polyfit1
                ((pySlice (MFDFA.mk [1, 2, 3, 4, 5, 6] [3, 4, 5] [[1, 2, 3]]
                  none [2] 1 true).n k₀ k₁).map fun w => (w : ℚ) / (3 : ℚ))
                ((pySlice ((MFDFA.mk [1, 2, 3, 4, 5, 6] [3, 4, 5] [[1, 2, 3]]
                  none [2] 1 true).F.getD i []) k₀ k₁).map fun v => v / (3 : ℚ))).2)) :=
  ⟨⟨rfl, by decide, rfl, by decide, by decide, by decide, by decide⟩,
    fitFlucVec_spec (MFDFA.mk [1, 2, 3, 4, 5, 6] [3, 4, 5] [[1, 2, 3]] none [2] 1 true)
      (fun x => x) 3 3 1 3 3 5 rfl (by decide) rfl (by decide) (by decide) (by decide)
      (by decide)⟩

end Fathon
